import Mathlib

set_option maxRecDepth 4000

/-!
# Verification of the grcov-to-markdown documentation assembler

A shallow embedding of the program in src/grcov-to-markdown.py.

Modelling conventions:
* Python floats are modelled as exact rational numbers (the spec only ever
  exercises short decimal fractions, on which IEEE rounding agrees with the
  exact value).  Rationals are always constructed with mkRat so that every
  definition evaluates by kernel reduction.
* The HTML document seen by BeautifulSoup is modelled structurally: a document
  is a list of tables, a table a list of tr rows, a row an optional first th
  text plus the list of td cell texts.  soup.find_all returns all rows of the
  document in document order, i.e. the flattened list.
* A Python exception escaping a function is modelled by Option: none means the
  call raised.
* Console output (print) is modelled, where a claim needs it, as an explicit
  log list returned next to the value.
* str.replace, str.split, str.strip and the re.findall scan of the docs-link
  pattern are re-implemented on lists of characters by structural recursion,
  mirroring the Python semantics used by the program (patterns here are
  non-empty literals; the scan is the left-to-right non-overlapping search
  re.findall performs for this particular regular expression).
-/

/-- The character for a decimal digit; the argument is reduced mod 10 so the
function is total, callers only pass digits. -/
def digitChar (d : ℕ) : Char :=
  Char.ofNat (48 + d % 10)

/-- Decimal digits of a natural number, most significant first; fuel-driven so
that it evaluates by kernel reduction (fuel n+1 always suffices). -/
def natDigitsAux : ℕ → ℕ → List Char
  | 0, _ => []
  | fuel+1, n =>
    if n < 10 then [digitChar n]
    else natDigitsAux fuel (n / 10) ++ [digitChar (n % 10)]

/-- Decimal representation of a natural number, as Python str(int) renders it. -/
def natRepr (n : ℕ) : String :=
  ⟨natDigitsAux (n + 1) n⟩

/-- Decimal representation of an integer, as Python str(int) renders it. -/
def intRepr (i : ℤ) : String :=
  if i < 0 then "-" ++ natRepr i.natAbs else natRepr i.natAbs

/-- Number of newline characters of a string: the number of newline-terminated
lines of the rendered report. -/
def countNL (s : String) : ℕ :=
  s.data.count '\n'

/-- Python str.strip(): drop whitespace from both ends. -/
def pyStrip (s : String) : String :=
  ⟨((s.data.dropWhile Char.isWhitespace).reverse.dropWhile Char.isWhitespace).reverse⟩

/-- Python str.strip of a percent sign: drop percent characters from both ends. -/
def stripPct (s : String) : String :=
  ⟨((s.data.dropWhile (fun c => c = '%')).reverse.dropWhile (fun c => c = '%')).reverse⟩

/-- Value of a list of decimal digit characters. -/
def digitsVal (l : List Char) : ℕ :=
  l.foldl (fun a c => a * 10 + (c.toNat - 48)) 0

/-- Python int(str) on the forms the program feeds it: optional sign then a
non-empty run of digits (surrounding whitespace is stripped); none models the
ValueError Python raises otherwise. -/
def pyInt (s : String) : Option ℤ :=
  let t := (pyStrip s).data
  let p : ℤ × List Char :=
    match t with
    | '-' :: r => (-1, r)
    | '+' :: r => (1, r)
    | _ => (1, t)
  if p.2 ≠ [] ∧ p.2.all Char.isDigit then some (p.1 * digitsVal p.2) else none

/-- Python float(str) on the plain decimal forms the program feeds it:
optional sign, digits, optionally a dot and further digits; the value is the
exact rational.  none models the ValueError Python raises otherwise. -/
def pyFloat (s : String) : Option ℚ :=
  let t := (pyStrip s).data
  let p : ℤ × List Char :=
    match t with
    | '-' :: r => (-1, r)
    | '+' :: r => (1, r)
    | _ => (1, t)
  let ip := p.2.takeWhile Char.isDigit
  let rest := p.2.drop ip.length
  match rest with
  | [] => if ip ≠ [] then some (mkRat (p.1 * digitsVal ip) 1) else none
  | '.' :: fr =>
    if (ip ≠ [] ∨ fr ≠ []) ∧ fr.all Char.isDigit then
      some (mkRat (p.1 * (digitsVal ip * 10 ^ fr.length + digitsVal fr)) (10 ^ fr.length))
    else none
  | _ => none

/-- Fractional decimal digits of num/den by long division (num < den expected);
stops when the remainder is zero, fuel bounds the expansion. -/
def longDiv : ℕ → ℕ → ℕ → List Char
  | 0, _, _ => []
  | _+1, 0, _ => []
  | fuel+1, num, den => digitChar (num * 10 / den) :: longDiv fuel (num * 10 % den) den

/-- Python str(float) (used by the f-string of generate_row) on the exact
rational model: sign, integer part, a dot, and the minimal fractional digits,
at least one.  Agrees with CPython repr on every finite decimal the program
handles. -/
def formatFloat (q : ℚ) : String :=
  let sgn := if q.num < 0 then "-" else ""
  let n := q.num.natAbs
  let d := q.den
  let ds := longDiv 500 (n % d) d
  sgn ++ natRepr (n / d) ++ "." ++ (if ds = [] then "0" else ⟨ds⟩)

/-- Python round(float) on the exact rational model: round half to even.
Written over the numerator and denominator so that it evaluates by kernel
reduction; pyRound_eq below restates it through floor and fract. -/
def pyRound (q : ℚ) : ℤ :=
  let f := q.num / (q.den : ℤ)
  let r2 := 2 * (q.num - f * q.den)
  if r2 < (q.den : ℤ) then f
  else if (q.den : ℤ) < r2 then f + 1
  else if f % 2 = 0 then f else f + 1

/-- generate_header of the source: the fixed two-line markdown table header. -/
def generate_header : String :=
  "| File | Coverage Bar | Line Coverage | Lines Covered | Lines Total |\n|------|--------------|---------------|---------------|-------------|\n"

/-- generate_bar of the source: the progress-image URL built from the rounded
coverage value. -/
def generate_bar (coverage : ℚ) : String :=
  "![](https://geps.dev/progress/" ++ intRepr (pyRound coverage) ++ ")"

/-- generate_row of the source: one markdown table row. -/
def generate_row (file_name : String) (line_coverage : ℚ)
    (lines_covered lines_total : ℤ) : String :=
  "| " ++ file_name ++ " | " ++ generate_bar line_coverage ++ " | " ++
    formatFloat line_coverage ++ "% | " ++ intRepr lines_covered ++ " | " ++
    intRepr lines_total ++ " |\n"

/-- A tr element: the text of its first th descendant, if any, and the texts of
its td cells. -/
structure HtmlRow where
  th : Option String
  tds : List String
deriving DecidableEq

/-- A table of the coverage document. -/
structure HtmlTable where
  rows : List HtmlRow
deriving DecidableEq

/-- soup.find_all of tr: every tr of the document in document order. -/
def find_all_tr (doc : List HtmlTable) : List HtmlRow :=
  (doc.map HtmlTable.rows).flatten

/-- Python str.split on a single-character separator. -/
def splitOnChar (sep : Char) : List Char → List (List Char)
  | [] => [[]]
  | c :: rest =>
    let r := splitOnChar sep rest
    if c = sep then [] :: r
    else
      match r with
      | [] => [[c]]
      | h :: t => (c :: h) :: t

/-- The coverage record the loop body of parse_html_coverage_report extracts
from one row with at least six cells. -/
structure CoverageRecord where
  file_name : String
  line_coverage : ℚ
  lines_covered : ℤ
  lines_total : ℤ
deriving DecidableEq

/-- The extraction a loop iteration performs on a row that passed the cell
count guard: th text (AttributeError, hence none, when the row has no th),
the percentage of cell 1, and the covered/total pair of cell 2. -/
def rowRecord (row : HtmlRow) : Option CoverageRecord := do
  let t ← row.th
  let cov ← pyFloat (stripPct (pyStrip (row.tds.getD 1 "")))
  match splitOnChar '/' (pyStrip (row.tds.getD 2 "")).data with
  | [a, b] => do
    let covered ← pyInt ⟨a⟩
    let total ← pyInt ⟨b⟩
    pure ⟨pyStrip t, cov, covered, total⟩
  | _ => none

/-- The markdown text a record is rendered to. -/
def renderRecord (cr : CoverageRecord) : String :=
  generate_row cr.file_name cr.line_coverage cr.lines_covered cr.lines_total

/-- The loop of parse_html_coverage_report over the rows after the header:
rows with fewer than six cells are skipped, a row that fails extraction makes
the whole call raise (none). -/
def renderRows : List HtmlRow → Option String
  | [] => some ""
  | row :: rest =>
    if 6 ≤ row.tds.length then
      match rowRecord row with
      | none => none
      | some cr =>
        match renderRows rest with
        | none => none
        | some t => some (renderRecord cr ++ t)
    else renderRows rest

/-- parse_html_coverage_report of the source: find all tr elements of the
document, skip the first as header, render the header plus one markdown row
per extracted record. -/
def parse_html_coverage_report (doc : List HtmlTable) : Option String :=
  (renderRows ((find_all_tr doc).drop 1)).map (fun t => generate_header ++ t)

/-- The records of the rows the loop accepts, in order. -/
def validRecords (l : List HtmlRow) : List CoverageRecord :=
  l.filterMap (fun r => if 6 ≤ r.tds.length then rowRecord r else none)

/-- Concatenation of rendered rows. -/
def concatAll (l : List String) : String :=
  l.foldr (fun a b => a ++ b) ""

/-- The table body parse_html_coverage_report produces when no row raises. -/
def renderedTable (l : List HtmlRow) : String :=
  concatAll ((validRecords l).map renderRecord)

/-- Concrete header row of the sample report used by the witnesses below. -/
def headerRow : HtmlRow :=
  ⟨some "File", []⟩

/-- Concrete valid data row (six cells, 80 percent, 8 of 10 lines). -/
def libRow : HtmlRow :=
  ⟨some "lib.rs", ["", "80.0%", "8/10", "", "", ""]⟩

/-- Concrete row with only two cells. -/
def shortRow : HtmlRow :=
  ⟨some "util.rs", ["95.0%", "19/20"]⟩

/-- Concrete one-table coverage document: header plus one valid row. -/
def wDoc : List HtmlTable :=
  [⟨[headerRow, libRow]⟩]

/-- The markdown row libRow renders to. -/
def libRowMd : String :=
  "| lib.rs | ![](https://geps.dev/progress/80) | 80.0% | 8 | 10 |\n"

/-- Second witness table: header-only first table. -/
def tbl1 : HtmlTable :=
  ⟨[headerRow]⟩

/-- Second witness table: a data row in a second table. -/
def tbl2 : HtmlTable :=
  ⟨[libRow]⟩

/-- Python str.replace for a non-empty pattern: left-to-right replacement of
every non-overlapping occurrence.  Fuel-driven (the list length always
suffices, each step consumes at least one character). -/
def pyReplaceAux (pat rep : List Char) : ℕ → List Char → List Char
  | _, [] => []
  | 0, l => l
  | fuel+1, c :: rest =>
    if pat.isPrefixOf (c :: rest) && !pat.isEmpty then
      rep ++ pyReplaceAux pat rep fuel ((c :: rest).drop pat.length)
    else c :: pyReplaceAux pat rep fuel rest

/-- Python str.replace on strings. -/
def pyReplace (s pat rep : String) : String :=
  ⟨pyReplaceAux pat.data rep.data s.data.length s.data⟩

/-- Whether pat occurs as a contiguous substring. -/
def occursIn (pat : List Char) : List Char → Bool
  | [] => pat.isEmpty
  | c :: rest => pat.isPrefixOf (c :: rest) || occursIn pat rest

/-- replace_test_status of the source: replace every occurrence of the fixed
test-status marker by the rendered table. -/
def replace_test_status (readme_content test_status_content : String) : String :=
  pyReplace readme_content "[See Test Status](./TEST_STATUS.md)" test_status_content

/-- Python str.endswith. -/
def pyEndsWith (s suffix : String) : Bool :=
  suffix.data.isSuffixOf s.data

/-- Consume an expected literal. -/
def dropLit (lit l : List Char) : Option (List Char) :=
  if lit.isPrefixOf l then some (l.drop lit.length) else none

/-- One attempt of the docs-link regular expression
([docs: label](./path.md-or-rs)) at the current position; label is the maximal
non-bracket run, path the maximal non-parenthesis run, which the pattern
forces, so the regex engine needs no backtracking here.  Returns label, path
and the rest of the input after the match. -/
def tryMatch (l : List Char) : Option (String × String × List Char) := do
  let l1 ← dropLit "([docs: ".data l
  let label := l1.takeWhile (fun c => c ≠ ']')
  if label = [] then none
  else
    let l2 ← dropLit "](./".data (l1.drop label.length)
    let path := l2.takeWhile (fun c => c ≠ ')')
    if 4 ≤ path.length ∧ (".md".data.isSuffixOf path ∨ ".rs".data.isSuffixOf path) then do
      let l3 ← dropLit "))".data (l2.drop path.length)
      pure (⟨label⟩, ⟨path⟩, l3)
    else none

/-- The left-to-right non-overlapping scan re.findall performs: on a match
continue after it, otherwise advance one character.  Fuel-driven, the input
length suffices. -/
def scanAux : ℕ → List Char → List (String × String)
  | 0, _ => []
  | _, [] => []
  | fuel+1, c :: rest =>
    match tryMatch (c :: rest) with
    | some (d, f, remaining) => (d, f) :: scanAux fuel remaining
    | none => scanAux fuel rest

/-- re.findall of the docs-link pattern over the document: the list of
(label, path) matches in scan order. -/
def scanMatches (content : String) : List (String × String) :=
  scanAux content.data.length content.data

/-- run_cargo_readme of the source: the external tool's outcome is an abstract
argument; on success the stdout text is returned (even when empty), on failure
the error is printed and None returned. -/
def run_cargo_readme (result : Except String String) : Option String :=
  match result with
  | .ok out => some out
  | .error _ => none

/-- One iteration of the loop of replace_docs_links over a (label, path)
match.  fs gives the content of an existing file, gen the outcome of the
scoped cargo-readme run for an .rs path.  The String is the evolving document,
the list the console diagnostics printed so far. -/
def docsStep (fs : String → Option String) (gen : String → Except String String)
    (st : String × List String) (m : String × String) : String × List String :=
  match fs m.2 with
  | none => (st.1, st.2 ++ ["Referenced file not found: " ++ m.2])
  | some raw =>
    let fc := if pyEndsWith m.2 ".rs" then run_cargo_readme (gen m.2) else some raw
    let logs := st.2 ++ ["Generating markdown content for: " ++ m.2]
    match fc with
    | none => (st.1, logs)
    | some s =>
      if s = "" then (st.1, logs)
      else
        (pyReplace st.1 ("([docs: " ++ m.1 ++ "](./" ++ m.2 ++ "))") s,
         logs ++ ["Replacing " ++ m.2 ++ " with generated markdown content."])

/-- replace_docs_links of the source: scan the original document for matches,
then fold the per-match substitution over the document. -/
def replace_docs_links (fs : String → Option String)
    (gen : String → Except String String) (content : String) : String × List String :=
  (scanMatches content).foldl (docsStep fs gen) (content, [])

/-- The observable outcome of a run of main: the file writes in order, and
whether the process finished with exit status zero (false models an uncaught
exception). -/
structure MainOut where
  writes : List (String × String)
  exitZero : Bool
deriving DecidableEq

/-- main of the source (named mainRun because Lean reserves the name main for executables).  cargoResult is the outcome of the unscoped external
cargo-readme run, htmlExists whether the report file exists at the fixed
relative path, doc its parsed content, fs the filesystem for docs links, gen
the scoped cargo-readme runs. -/
def mainRun (cargoResult : Except String String) (htmlExists : Bool)
    (doc : List HtmlTable) (fs : String → Option String)
    (gen : String → Except String String) : MainOut :=
  match run_cargo_readme cargoResult with
  | none => ⟨[], true⟩
  | some readme =>
    if htmlExists then
      match parse_html_coverage_report doc with
      | none => ⟨[("README.md", readme)], false⟩
      | some report =>
        let r1 := replace_test_status readme report
        let r2 := (replace_docs_links fs gen r1).1
        ⟨[("README.md", readme), ("README.md", r2), ("TEST_STATUS.md", report)], true⟩
    else ⟨[("README.md", readme)], true⟩

lemma countNL_mk (l : List Char) : countNL ⟨l⟩ = l.count '\n' := rfl

lemma data_append (a b : String) : (a ++ b).data = a.data ++ b.data := by
  cases a
  cases b
  rfl

lemma countNL_append (a b : String) : countNL (a ++ b) = countNL a + countNL b := by
  unfold countNL
  rw [data_append, List.count_append]

lemma count_nl_digit_cons (d : ℕ) (l : List Char) :
    (digitChar d :: l).count '\n' = l.count '\n' := by
  rw [List.count_cons]
  have h : (digitChar d == '\n') = false := by
    have hb : ∀ k, k < 10 → (Char.ofNat (48 + k) == '\n') = false := by decide
    exact hb (d % 10) (Nat.mod_lt d (by norm_num))
  rw [h]
  simp

lemma count_nl_natDigitsAux (fuel n : ℕ) : (natDigitsAux fuel n).count '\n' = 0 := by
  induction fuel generalizing n with
  | zero => rfl
  | succ fuel ih =>
    rw [natDigitsAux]
    split
    · rw [count_nl_digit_cons]
      rfl
    · rw [List.count_append, ih, count_nl_digit_cons]
      rfl

lemma countNL_natRepr (n : ℕ) : countNL (natRepr n) = 0 :=
  count_nl_natDigitsAux (n + 1) n

lemma countNL_intRepr (i : ℤ) : countNL (intRepr i) = 0 := by
  unfold intRepr
  split
  · rw [countNL_append, countNL_natRepr]
    decide
  · exact countNL_natRepr _

lemma count_nl_longDiv (fuel num den : ℕ) : (longDiv fuel num den).count '\n' = 0 := by
  induction fuel generalizing num with
  | zero => rfl
  | succ fuel ih =>
    cases num with
    | zero => rfl
    | succ k =>
      rw [show longDiv (fuel + 1) (k + 1) den =
            digitChar ((k + 1) * 10 / den) :: longDiv fuel ((k + 1) * 10 % den) den from rfl]
      rw [count_nl_digit_cons]
      exact ih _

lemma countNL_formatFloat (q : ℚ) : countNL (formatFloat q) = 0 := by
  simp only [formatFloat]
  split_ifs <;>
    simp only [countNL_append, countNL_mk, countNL_natRepr, count_nl_longDiv] <;> decide

lemma countNL_generate_bar (q : ℚ) : countNL (generate_bar q) = 0 := by
  unfold generate_bar
  simp only [countNL_append, countNL_intRepr]
  decide

lemma countNL_generate_row (f : String) (q : ℚ) (a b : ℤ) (h : countNL f = 0) :
    countNL (generate_row f q a b) = 1 := by
  unfold generate_row
  simp only [countNL_append, countNL_intRepr, countNL_formatFloat, countNL_generate_bar, h]
  decide

lemma num_eq_mul_den (q : ℚ) : (q.num : ℚ) = q * (q.den : ℚ) := by
  have h0 := Rat.num_div_den q
  have hden : ((q.den : ℚ)) ≠ 0 := by
    exact_mod_cast q.den_nz
  rw [div_eq_iff hden] at h0
  exact h0

lemma r2_cast (q : ℚ) :
    ((2 * (q.num - ⌊q⌋ * q.den) : ℤ) : ℚ) = 2 * Int.fract q * (q.den : ℚ) := by
  push_cast
  rw [num_eq_mul_den, ← Int.self_sub_floor]
  ring

lemma pyRound_eq (q : ℚ) :
    pyRound q =
      if Int.fract q < 1/2 then ⌊q⌋
      else if 1/2 < Int.fract q then ⌊q⌋ + 1
      else if ⌊q⌋ % 2 = 0 then ⌊q⌋ else ⌊q⌋ + 1 := by
  have hden : (0 : ℚ) < (q.den : ℚ) := by
    exact_mod_cast q.pos
  have h1 : (2 * (q.num - ⌊q⌋ * q.den) < (q.den : ℤ)) ↔ Int.fract q < 1/2 := by
    rw [← @Int.cast_lt ℚ _ _ _, r2_cast,
      show ((q.den : ℤ) : ℚ) = 1 * (q.den : ℚ) from by push_cast; ring,
      mul_lt_mul_right hden]
    constructor <;> intro h <;> linarith
  have h2 : ((q.den : ℤ) < 2 * (q.num - ⌊q⌋ * q.den)) ↔ 1/2 < Int.fract q := by
    rw [← @Int.cast_lt ℚ _ _ _, r2_cast,
      show ((q.den : ℤ) : ℚ) = 1 * (q.den : ℚ) from by push_cast; ring,
      mul_lt_mul_right hden]
    constructor <;> intro h <;> linarith
  have hf : q.num / (q.den : ℤ) = ⌊q⌋ := Rat.floor_def.symm
  simp only [pyRound, hf]
  by_cases hA : Int.fract q < 1/2
  · rw [if_pos (h1.mpr hA), if_pos hA]
  · rw [if_neg (fun hh => hA (h1.mp hh)), if_neg hA]
    by_cases hB : 1/2 < Int.fract q
    · rw [if_pos (h2.mpr hB), if_pos hB]
    · rw [if_neg (fun hh => hB (h2.mp hh)), if_neg hB]

lemma pyRound_nearest (q : ℚ) : |q - (pyRound q : ℚ)| ≤ 1/2 := by
  rw [pyRound_eq]
  have h0 := Int.fract_nonneg q
  have h1 := Int.fract_lt_one q
  have hfr : q - (⌊q⌋ : ℚ) = Int.fract q := Int.self_sub_floor q
  rcases lt_trichotomy (Int.fract q) (1/2) with h | h | h
  · rw [if_pos h, abs_le]
    constructor <;> linarith
  · rw [if_neg (by rw [h]; exact lt_irrefl _), if_neg (by rw [h]; exact lt_irrefl _)]
    split <;> (rw [abs_le]; push_cast; constructor <;> linarith)
  · rw [if_neg (by linarith), if_pos h, abs_le]
    push_cast
    constructor <;> linarith

lemma pyRound_int_add_half (n : ℤ) :
    pyRound ((n : ℚ) + 1/2) = if n % 2 = 0 then n else n + 1 := by
  rw [pyRound_eq]
  have hfr : Int.fract ((n : ℚ) + 1/2) = 1/2 := by
    rw [Int.fract_int_add, Int.fract_eq_self.mpr ⟨by norm_num, by norm_num⟩]
  have hfl : ⌊(n : ℚ) + 1/2⌋ = n := by
    rw [Int.floor_int_add]
    norm_num
  rw [hfr, hfl]
  norm_num

lemma renderRows_eq (l : List HtmlRow)
    (h : ∀ r ∈ l, 6 ≤ r.tds.length → (rowRecord r).isSome) :
    renderRows l = some (renderedTable l) := by
  induction l with
  | nil => rfl
  | cons r rest ih =>
    have hrest := ih (fun x hx hl => h x (List.mem_cons_of_mem r hx) hl)
    by_cases h6 : 6 ≤ r.tds.length
    · obtain ⟨cr, hcr⟩ := Option.isSome_iff_exists.mp (h r (List.mem_cons_self r rest) h6)
      rw [renderRows, if_pos h6, hcr, hrest]
      simp only [renderedTable, validRecords, List.filterMap_cons, if_pos h6, hcr,
        List.map_cons, concatAll, List.foldr_cons]
    · rw [renderRows, if_neg h6, hrest]
      simp only [renderedTable, validRecords, List.filterMap_cons, if_neg h6]

lemma countNL_renderedTable (l : List HtmlRow)
    (h : ∀ r ∈ l, 6 ≤ r.tds.length →
      ∃ cr, rowRecord r = some cr ∧ countNL cr.file_name = 0) :
    countNL (renderedTable l) =
      (l.filter (fun r => decide (6 ≤ r.tds.length))).length := by
  induction l with
  | nil => rfl
  | cons r rest ih =>
    have hrest := ih (fun x hx hl => h x (List.mem_cons_of_mem r hx) hl)
    by_cases h6 : 6 ≤ r.tds.length
    · obtain ⟨cr, hcr, hnl⟩ := h r (List.mem_cons_self r rest) h6
      have hstep : renderedTable (r :: rest) = renderRecord cr ++ renderedTable rest := by
        simp only [renderedTable, validRecords, List.filterMap_cons, if_pos h6, hcr,
          List.map_cons, concatAll, List.foldr_cons]
      rw [hstep, countNL_append, hrest, List.filter_cons, if_pos (by simpa using h6)]
      rw [renderRecord, countNL_generate_row _ _ _ _ hnl]
      simp only [List.length_cons]
      omega
    · have hstep : renderedTable (r :: rest) = renderedTable rest := by
        simp only [renderedTable, validRecords, List.filterMap_cons, if_neg h6]
      rw [hstep, hrest, List.filter_cons, if_neg (by simpa using h6)]

lemma renderRows_skip (r : HtmlRow) (post : List HtmlRow) (h : r.tds.length < 6) :
    ∀ l : List HtmlRow, renderRows (l ++ r :: post) = renderRows (l ++ post) := by
  intro l
  induction l with
  | nil =>
    rw [List.nil_append, List.nil_append, renderRows, if_neg (by omega)]
  | cons a l ih =>
    simp only [List.cons_append, renderRows, List.append_eq, ih]

lemma docsFold_missing (fs : String → Option String) (gen : String → Except String String)
    (ms : List (String × String)) (content : String) (logs : List String)
    (h : ∀ m ∈ ms, fs m.2 = none) :
    ms.foldl (docsStep fs gen) (content, logs) =
      (content, logs ++ ms.map (fun m => "Referenced file not found: " ++ m.2)) := by
  revert h
  induction ms generalizing logs with
  | nil =>
    intro h
    simp
  | cons m ms ih =>
    intro h
    rw [List.foldl_cons]
    have hm : fs m.2 = none := h m (List.mem_cons_self m ms)
    have hstep : docsStep fs gen (content, logs) m =
        (content, logs ++ ["Referenced file not found: " ++ m.2]) := by
      simp [docsStep, hm]
    rw [hstep, ih _ (fun x hx => h x (List.mem_cons_of_mem m hx))]
    simp

lemma pyReplaceAux_no_occ (pat rep : List Char) (fuel : ℕ) :
    ∀ l : List Char, occursIn pat l = false → pyReplaceAux pat rep fuel l = l := by
  induction fuel with
  | zero =>
    intro l _
    cases l <;> rfl
  | succ fuel ih =>
    intro l h
    cases l with
    | nil => rfl
    | cons c rest =>
      rw [occursIn] at h
      have h1 : pat.isPrefixOf (c :: rest) = false := by
        cases hp : pat.isPrefixOf (c :: rest)
        · rfl
        · rw [hp] at h
          simp at h
      have h2 : occursIn pat rest = false := by
        cases ho : occursIn pat rest
        · rfl
        · rw [ho] at h
          simp at h
      rw [show pyReplaceAux pat rep (fuel + 1) (c :: rest) =
            if pat.isPrefixOf (c :: rest) && !pat.isEmpty then
              rep ++ pyReplaceAux pat rep fuel ((c :: rest).drop pat.length)
            else c :: pyReplaceAux pat rep fuel rest from rfl]
      rw [h1]
      simp [ih rest h2]

/-- C1 (counterexample): a report with exactly one valid data row renders to a
table with three newline-terminated lines (two header lines plus the data
row), not the two lines the claim's N+1 count asserts. -/
theorem table_lines_claim_cex :
    parse_html_coverage_report wDoc = some (generate_header ++ libRowMd) ∧
    (((find_all_tr wDoc).drop 1).filter (fun r => decide (6 ≤ r.tds.length))).length = 1 ∧
    countNL (generate_header ++ libRowMd) = 3 :=
  ⟨by decide, by decide, by decide⟩

/-- C1 (amended): for a report whose post-header rows with at least six cells
all extract successfully into records with newline-free file names, parsing
succeeds, the table is the fixed header followed by the rendered record of
each valid row in order (so file name, rounded bar value and the covered and
total integers are preserved), and the table has exactly 2 + N
newline-terminated lines: two header lines plus one line per valid row. -/
theorem table_shape (doc : List HtmlTable)
    (h : ∀ r ∈ (find_all_tr doc).drop 1, 6 ≤ r.tds.length →
      ∃ cr, rowRecord r = some cr ∧ countNL cr.file_name = 0) :
    parse_html_coverage_report doc =
      some (generate_header ++ renderedTable ((find_all_tr doc).drop 1)) ∧
    countNL (generate_header ++ renderedTable ((find_all_tr doc).drop 1)) =
      2 + (((find_all_tr doc).drop 1).filter (fun r => decide (6 ≤ r.tds.length))).length := by
  constructor
  · unfold parse_html_coverage_report
    rw [renderRows_eq _ (fun r hr h6 => by
      obtain ⟨cr, hcr, _⟩ := h r hr h6
      rw [hcr]
      rfl)]
    rfl
  · rw [countNL_append, countNL_renderedTable _ h]
    have hh : countNL generate_header = 2 := by decide
    rw [hh]

/-- C1 (witness): the amended theorem evaluated on the concrete one-row
report. -/
theorem table_shape_witness :
    parse_html_coverage_report wDoc =
      some (generate_header ++ renderedTable ((find_all_tr wDoc).drop 1)) ∧
    countNL (generate_header ++ renderedTable ((find_all_tr wDoc).drop 1)) = 3 := by
  obtain ⟨h1, h2⟩ := table_shape wDoc (by
    intro r hr h6
    have he : (find_all_tr wDoc).drop 1 = [libRow] := by decide
    rw [he] at hr
    have hr2 : r = libRow := by simpa using hr
    subst hr2
    exact ⟨⟨"lib.rs", mkRat 800 10, 8, 10⟩, by decide, by decide⟩)
  refine ⟨h1, ?_⟩
  rw [h2]
  decide

/-- C2 (counterexample): when the external tool fails, the run returns with
exit status zero (not a non-zero-equivalent exit); and when the tool succeeds
with empty output, the run does not abort: it writes the empty base README. -/
theorem abort_claim_cex :
    mainRun (.error "boom") false [] (fun _ => none) (fun _ => .error "") = ⟨[], true⟩ ∧
    mainRun (.ok "") false [] (fun _ => none) (fun _ => .error "") =
      ⟨[("README.md", "")], true⟩ :=
  ⟨rfl, rfl⟩

/-- C2 (amended): if the external readme-generation tool fails, the run
returns immediately, performing no later step and producing no file write at
all, but it finishes with exit status zero (a plain early return, not a
non-zero exit); a successful run with empty output does not abort. -/
theorem tool_failure_stops_run (e : String) (htmlExists : Bool) (doc : List HtmlTable)
    (fs : String → Option String) (gen : String → Except String String) :
    mainRun (.error e) htmlExists doc fs gen = ⟨[], true⟩ :=
  rfl

/-- C3: when the HTML coverage report is absent at the fixed path, the run
exits with status zero after the single write of the base README, which stays
the final artifact; no table is rendered, no substitution applied, no
TEST_STATUS written. -/
theorem missing_report_graceful (base : String) (doc : List HtmlTable)
    (fs : String → Option String) (gen : String → Except String String) :
    mainRun (.ok base) false doc fs gen = ⟨[("README.md", base)], true⟩ :=
  rfl

/-- C4 (counterexample): with a header-only first table and a valid data row
in a second table, the output contains that second table's row as a data row,
so rows of other tables do contribute. -/
theorem first_table_claim_cex :
    parse_html_coverage_report [tbl1, tbl2] = some (generate_header ++ libRowMd) ∧
    generate_header ++ libRowMd ≠ generate_header :=
  ⟨by decide, by decide⟩

/-- C4 (amended): the renderer takes the tr rows of all tables of the document
in document order; only the very first tr of the document is treated as the
header and skipped, and the rows of every table, not just the first, feed the
output. -/
theorem all_tables_contribute (hd : HtmlRow) (rest : List HtmlRow) (ts : List HtmlTable) :
    parse_html_coverage_report (⟨hd :: rest⟩ :: ts) =
      (renderRows (rest ++ find_all_tr ts)).map (fun t => generate_header ++ t) := by
  simp [parse_html_coverage_report, find_all_tr]

/-- C5: the coverage bar is the deterministic URL template embedding the
rounded coverage value, the rounded value is within one half of the coverage,
and 66.7, 100.0 and 0.0 round to 67, 100 and 0. -/
theorem bar_rounding :
    generate_bar (667/10 : ℚ) = "![](https://geps.dev/progress/67)" ∧
    generate_bar (100 : ℚ) = "![](https://geps.dev/progress/100)" ∧
    generate_bar (0 : ℚ) = "![](https://geps.dev/progress/0)" ∧
    (∀ q : ℚ, generate_bar q = "![](https://geps.dev/progress/" ++ intRepr (pyRound q) ++ ")") ∧
    (∀ q : ℚ, |q - (pyRound q : ℚ)| ≤ 1/2) := by
  refine ⟨?_, by decide, by decide, fun q => rfl, pyRound_nearest⟩
  rw [show (667/10 : ℚ) = mkRat 667 10 from by rw [Rat.mkRat_eq_div]; norm_num]
  decide

/-- C6: a row with fewer than six cells is silently omitted: parsing a report
with such a row anywhere after the header gives exactly the parse of the
report without it, the following rows being processed as before. -/
theorem short_row_skipped (hd r : HtmlRow) (pre post : List HtmlRow)
    (h : r.tds.length < 6) :
    parse_html_coverage_report [⟨hd :: (pre ++ r :: post)⟩] =
      parse_html_coverage_report [⟨hd :: (pre ++ post)⟩] := by
  unfold parse_html_coverage_report
  have hf : ∀ l : List HtmlRow, find_all_tr [⟨l⟩] = l := by
    intro l
    simp [find_all_tr]
  rw [hf, hf]
  simp only [List.drop_succ_cons, List.drop_zero]
  rw [renderRows_skip r post h pre]

/-- C6 (witness): the skipping theorem evaluated on a concrete report with a
two-cell row between the header and a valid row. -/
theorem short_row_skipped_witness :
    shortRow.tds.length < 6 ∧
      parse_html_coverage_report [⟨[headerRow, shortRow, libRow]⟩] =
        parse_html_coverage_report [⟨[headerRow, libRow]⟩] :=
  ⟨by decide, short_row_skipped headerRow shortRow [] [libRow] (by decide)⟩

/-- C7 (counterexample): a docs placeholder whose markdown target exists with
empty content is not replaced: the document is returned unchanged and the
placeholder is still present, refuting the unconditional replacement claim. -/
theorem docs_empty_md_cex :
    (fun p => if p = "e.md" then some "" else none) "e.md" = some "" ∧
    (replace_docs_links (fun p => if p = "e.md" then some "" else none) (fun _ => .error "")
        "A([docs: x](./e.md))B").1 = "A([docs: x](./e.md))B" ∧
    occursIn "([docs: x](./e.md))".data "A([docs: x](./e.md))B".data = true :=
  ⟨rfl, by decide, by decide⟩

/-- C7 (amended): for a matched docs placeholder whose path exists with
nonempty content and a non-source extension, the substitution step replaces
every occurrence of the exact full placeholder text, outer parentheses
included, by the file content verbatim in one pass; duplicate identical
placeholders are all replaced together, as the closing concrete run shows. -/
theorem docs_md_replacement (fs : String → Option String)
    (gen : String → Except String String) (st : String × List String) (d f c : String)
    (hex : fs f = some c) (hrs : pyEndsWith f ".rs" = false) (hne : c ≠ "") :
    docsStep fs gen st (d, f) =
      (pyReplace st.1 ("([docs: " ++ d ++ "](./" ++ f ++ "))") c,
        st.2 ++ ["Generating markdown content for: " ++ f,
          "Replacing " ++ f ++ " with generated markdown content."]) ∧
    (replace_docs_links (fun p => if p = "n.md" then some "H" else none) (fun _ => .error "")
        "x([docs: a](./n.md))y([docs: a](./n.md))z").1 = "xHyHz" := by
  constructor
  · simp [docsStep, hex, hrs, hne]
  · decide

/-- C7 (witness): the replacement step evaluated on the concrete document of
the spec's markdown example. -/
theorem docs_md_replacement_witness :
    docsStep (fun p => if p = "NOTES.md" then some "Hello" else none) (fun _ => .error "")
        ("A([docs: Example](./NOTES.md))B", []) ("Example", "NOTES.md") =
      ("AHelloB",
        ["Generating markdown content for: NOTES.md",
          "Replacing NOTES.md with generated markdown content."]) := by
  have h := (docs_md_replacement (fun p => if p = "NOTES.md" then some "Hello" else none)
    (fun _ => .error "") ("A([docs: Example](./NOTES.md))B", []) "Example" "NOTES.md" "Hello"
    (by decide) (by decide) (by decide)).1
  rw [h]
  decide

/-- C8: when every matched docs placeholder refers to a missing path, the
document is returned untouched, one not-found diagnostic is emitted per match,
and the call completes normally. -/
theorem missing_docs_target_kept (fs : String → Option String)
    (gen : String → Except String String) (content : String)
    (h : ∀ m ∈ scanMatches content, fs m.2 = none) :
    replace_docs_links fs gen content =
      (content, (scanMatches content).map (fun m => "Referenced file not found: " ++ m.2)) := by
  unfold replace_docs_links
  rw [docsFold_missing fs gen _ content [] h]
  simp

/-- C8 (witness): the missing-target theorem evaluated on a concrete document
with one placeholder and an empty filesystem. -/
theorem missing_docs_target_kept_witness :
    replace_docs_links (fun _ => none) (fun _ => .error "") "A([docs: d](./x.md))B" =
      ("A([docs: d](./x.md))B", ["Referenced file not found: x.md"]) := by
  have h := missing_docs_target_kept (fun _ => none) (fun _ => .error "")
    "A([docs: d](./x.md))B" (fun m _ => rfl)
  rw [h]
  decide

/-- C9: substituting the test-status marker in a document that contains no
occurrence of the marker returns the document unchanged. -/
theorem marker_absent_unchanged (doc table : String)
    (h : occursIn "[See Test Status](./TEST_STATUS.md)".data doc.data = false) :
    replace_test_status doc table = doc := by
  unfold replace_test_status pyReplace
  rw [pyReplaceAux_no_occ _ _ _ _ h]

/-- C9 (witness): the marker-free theorem evaluated on a concrete document. -/
theorem marker_absent_unchanged_witness :
    replace_test_status "# Title only\n" "TABLE" = "# Title only\n" :=
  marker_absent_unchanged "# Title only\n" "TABLE" (by decide)

/-- C10: a coverage value exactly halfway between two integers rounds half to
even: 0.5 gives bar integer 0, 1.5 gives bar integer 2, and in general n + 1/2
rounds to n when n is even and to n + 1 when n is odd. -/
theorem bar_half_to_even :
    generate_bar (1/2 : ℚ) = "![](https://geps.dev/progress/0)" ∧
    generate_bar (3/2 : ℚ) = "![](https://geps.dev/progress/2)" ∧
    ∀ n : ℤ, pyRound ((n : ℚ) + 1/2) = if n % 2 = 0 then n else n + 1 := by
  refine ⟨?_, ?_, pyRound_int_add_half⟩
  · rw [show (1/2 : ℚ) = mkRat 1 2 from by rw [Rat.mkRat_eq_div]; norm_num]
    decide
  · rw [show (3/2 : ℚ) = mkRat 3 2 from by rw [Rat.mkRat_eq_div]; norm_num]
    decide
